import Mathlib

/-!
Shallow embedding of the `httplog` package (`http.go`) of bwplotka/go-httplog.

Conventions of the embedding:
* Go strings are Lean `String`s; `strings.Split` with a one-character
  separator is modelled by `strSplit` below (same semantics: splitting the
  empty string yields `[""]`, adjacent separators yield empty elements).
* `http.Header.Get` returns the header value, or `""` when the header is
  absent; requests and response headers are therefore modelled as records of
  the header values the code actually reads, with `""` meaning "absent".
* Results of Go standard-library calls that the package treats as opaque
  inputs (`req.Form.Encode()` after `req.FormValue("")`, the host component
  returned by `net.SplitHostPort(req.RemoteAddr)`, `timeNow().Format(RFC3339)`)
  are carried as data fields of the request/environment.
* The side effects of the code — calls forwarded to the underlying
  `http.ResponseWriter` and calls made on the `FieldLogger` sink — are
  recorded as an explicit trace of `Event`s; the underlying writer's
  `Write` is modelled as fully succeeding (`n = len b`, no error).
* Go's `Fields` map (`map[string]interface{}` populated by `f[k] = v`) is
  modelled as an association list with replace-on-insert (`setField`).
-/

namespace Httplog

/-- Model of Go `strings.Split(s, sep)` for a single-character separator,
on the character-list level: `splitCh c [] = [[]]`, and each occurrence of
`c` starts a new (possibly empty) element. -/
def splitCh (c : Char) : List Char → List (List Char)
  | [] => [[]]
  | x :: xs =>
    if x = c then [] :: splitCh c xs
    else
      match splitCh c xs with
      | [] => [[x]]
      | h :: t => (x :: h) :: t

/-- Model of Go `strings.Split(s, string(c))`. -/
def strSplit (c : Char) (s : String) : List String :=
  (splitCh c s.data).map (fun l => ⟨l⟩)

/-- The `argsOnly` list accumulated by `formatCompactArgs`: the loop splits
each `&`-element on `=`, skips elements whose first component (the key) is
empty, and keeps the key. (Go's `len(a) == 0` guard is kept as the `[]`
case even though `strings.Split` never returns an empty slice.) -/
def compactKeys (argQuery : String) : List String :=
  (strSplit '&' argQuery).filterMap (fun argElem =>
    match strSplit '=' argElem with
    | [] => none
    | a0 :: _ => if a0 = "" then none else some a0)

/-- Embedding of `formatCompactArgs` (http.go): keep the keys, print each as
`key=...`, join with `&`; empty key list yields the empty string. -/
def formatCompactArgs (argQuery : String) : String :=
  let argsOnly := compactKeys argQuery
  if argsOnly.isEmpty then ""
  else String.intercalate "&" (argsOnly.map (fun a => a ++ "=..."))

/-- A `RequestField` is a string tag (Go: `type RequestField string`). -/
abbrev RequestField := String

def ReqTimeField : RequestField := "req_time"
def IDField : RequestField := "req_id"
def RemoteIPField : RequestField := "req_remote_ip"
def HostField : RequestField := "req_host"
def URIField : RequestField := "req_uri"
def ReqArgsField : RequestField := "req_args"
def MethodField : RequestField := "req_method"
def PathField : RequestField := "req_path"
def BytesInField : RequestField := "req_bytes_in"
def AuthField : RequestField := "req_auth_header"

/-- `DefaultRequestFields` from http.go (note: `URIField` is not in it). -/
def DefaultRequestFields : List RequestField :=
  [ReqTimeField, IDField, RemoteIPField, HostField, ReqArgsField,
   MethodField, PathField, BytesInField, AuthField]

/-- A `ResponseField` is a string tag (Go: `type ResponseField string`). -/
abbrev ResponseField := String

def StatusField : ResponseField := "res_status"
def BytesOutField : ResponseField := "res_bytes_out"
def ResTimeField : ResponseField := "res_time"
def ContentTypeField : ResponseField := "res_content_type"
def LocationField : ResponseField := "res_location"
def LocationArgsField : ResponseField := "res_location_args"
def LocationHostField : ResponseField := "res_location_host"

/-- `DefaultResponseFields` from http.go (note: `LocationField` is not in it). -/
def DefaultResponseFields : List ResponseField :=
  [StatusField, BytesOutField, ResTimeField, ContentTypeField,
   LocationArgsField, LocationHostField]

/-- Embedding of `Config` (http.go). -/
structure Config where
  requestFields : List RequestField := []
  responseFields : List ResponseField := []
  responseReqFields : List RequestField := []
  deriving Repr, DecidableEq

/-- `DefaultReqResConfig` from http.go. -/
def DefaultReqResConfig : Config :=
  { requestFields := DefaultRequestFields
    responseFields := DefaultResponseFields }

/-- `DefaultResponseOnlyConfig` from http.go. -/
def DefaultResponseOnlyConfig : Config :=
  { responseReqFields := DefaultRequestFields
    responseFields := DefaultResponseFields }

/-- The request data read by `RequestField.computeValue`. Header fields hold
`req.Header.Get(...)` results (`""` when the header is absent).
`remoteAddrHost` carries the host component of `remoteAddr` as returned by
the standard-library call `net.SplitHostPort(req.RemoteAddr)` (the `""`
that Go yields on a split error included); `formEncoded` carries
`req.Form.Encode()` as available after the idempotent `req.FormValue("")`
parse. Both calls are outside the package and are treated as input data. -/
structure Request where
  method : String := ""
  host : String := ""
  requestURI : String := ""
  urlPath : String := ""
  remoteAddr : String := ""
  remoteAddrHost : String := ""
  formEncoded : String := ""
  xRequestID : String := ""
  xForwardedFor : String := ""
  xRealIP : String := ""
  contentLength : String := ""
  authorization : String := ""
  deriving Repr, DecidableEq

/-- Embedding of `RequestField.computeValue` (http.go). The Go `switch` on
the string tag becomes an ordered chain of string comparisons with the same
cases; `now` is the already-formatted `timeNow().Format(time.RFC3339)`. -/
def RequestField.computeValue (f : RequestField) (now : String) (req : Request) : String :=
  if f = ReqTimeField then now
  else if f = IDField then req.xRequestID
  else if f = RemoteIPField then
    if req.xForwardedFor ≠ "" then req.xForwardedFor
    else if req.xRealIP ≠ "" then req.xRealIP
    else req.remoteAddrHost
  else if f = HostField then req.host
  else if f = URIField then req.requestURI
  else if f = ReqArgsField then formatCompactArgs req.formEncoded
  else if f = MethodField then req.method
  else if f = PathField then (if req.urlPath = "" then "/" else req.urlPath)
  else if f = BytesInField then
    (if req.contentLength = "" then "0" else req.contentLength)
  else if f = AuthField then req.authorization
  else "not supported"

/-- The live header map of the underlying `http.ResponseWriter`
(`r.Header()`), restricted to the two headers the code reads;
`""` means "absent". -/
structure RespHeaders where
  contentType : String := ""
  location : String := ""
  deriving Repr, DecidableEq

/-- The mutable state of a `responseLogger` (http.go): Go zero values are
`status = 0`, `size = 0`, `committed = false`, `logged = false`. `size` is
the cumulative byte count (`int64`, only ever increased by write lengths,
so a `Nat`). -/
structure RLState where
  status : Int := 0
  size : Nat := 0
  committed : Bool := false
  logged : Bool := false
  deriving Repr, DecidableEq

/-- A fresh `responseLogger` state, as built by `Logger.WrapResponse`. -/
def rlInit : RLState := {}

/-- Embedding of `ResponseField.computeValue` (http.go); `fmt.Sprintf("%d", ·)`
is `toString`. -/
def ResponseField.computeValue (f : ResponseField) (now : String)
    (hdr : RespHeaders) (s : RLState) : String :=
  if f = StatusField then toString s.status
  else if f = BytesOutField then toString s.size
  else if f = ResTimeField then now
  else if f = ContentTypeField then hdr.contentType
  else if f = LocationField then hdr.location
  else if f = LocationArgsField then
    let splittedQuery := strSplit '?' hdr.location
    if splittedQuery.length ≠ 2 then "" else formatCompactArgs (splittedQuery.getD 1 "")
  else if f = LocationHostField then
    let splittedQuery := strSplit '?' hdr.location
    if splittedQuery.length < 1 then "" else splittedQuery.headD ""
  else "not supported"

/-- A Go `Fields` map under construction: association list, keys unique,
written by `f[k] = v`. -/
abbrev Fields := List (String × String)

/-- Go map assignment `f[k] = v`: replace the binding of `k` if present,
otherwise append it. -/
def setField : Fields → String → String → Fields
  | [], k, v => [(k, v)]
  | (k', v') :: rest, k, v =>
    if k' = k then (k, v) :: rest else (k', v') :: setField rest k v

/-- One field-population loop (the shape shared by `RequestHandler` and
`responseLogger.log`): compute each field's value, skip it when it is the
empty string, otherwise store it in the map. -/
def addFields (compute : String → String) (acc : Fields) (fls : List String) : Fields :=
  fls.foldl (fun a fl =>
    let v := compute fl
    if v = "" then a else setField a fl v) acc

/-- The per-request environment a `responseLogger` closes over: the request,
the configuration, and the formatted clock value (`timeNow` is read-only). -/
structure Env where
  req : Request := {}
  cfg : Config := {}
  now : String := ""
  deriving Repr, DecidableEq

/-- Observable side effects of the engine: calls forwarded to the underlying
`http.ResponseWriter` (`writeHeader`, `write`, with `write n` recording the
byte count) and calls on the `FieldLogger` sink (`withFields`, `log`). -/
inductive Event where
  | writeHeader (code : Int)
  | write (n : Nat)
  | withFields (f : Fields)
  | log (msg : String)
  deriving Repr, DecidableEq

/-- The `Fields` map built inside `responseLogger.log`: first the
`ResponseReqFields` loop over the request, then the `ResponseFields` loop
over the response state. -/
def logRecord (env : Env) (hdr : RespHeaders) (s : RLState) : Fields :=
  addFields (fun fl => ResponseField.computeValue fl env.now hdr s)
    (addFields (fun fl => RequestField.computeValue fl env.now env.req)
      [] env.cfg.responseReqFields)
    env.cfg.responseFields

/-- Embedding of `responseLogger.log` (http.go). Guarded by the `logged`
flag; `b` is the body chunk handed to `parseBody`, which only ever returns
the sink unchanged (`parseJSON` is an explicit no-op placeholder), so `b`
contributes nothing observable. `WithFields` is called only on a non-empty
map; the message depends on the presence of a `Location` header. -/
def rlLog (env : Env) (hdr : RespHeaders) (b : Nat) (s : RLState) : RLState × List Event :=
  if s.logged then (s, [])
  else
    let s1 := { s with logged := true }
    let f := logRecord env hdr s1
    (s1, (if f.isEmpty then [] else [Event.withFields f]) ++
      [Event.log (if hdr.location ≠ "" then "Redirecting HTTP request"
                  else "Responding to HTTP request")])

/-- Embedding of `responseLogger.WriteHeader` (http.go): no-op when already
committed; otherwise store the status, forward `WriteHeader` to the
underlying writer, mark committed, and — when a `Location` header is
present — run `log` with an empty body chunk. -/
def rlWriteHeader (env : Env) (hdr : RespHeaders) (code : Int) (s : RLState) :
    RLState × List Event :=
  if s.committed then (s, [])
  else
    let s1 := { s with status := code, committed := true }
    let r2 := if hdr.location ≠ "" then rlLog env hdr 0 s1 else (s1, [])
    (r2.1, Event.writeHeader code :: r2.2)

/-- Embedding of `responseLogger.Write` (http.go): an uncommitted observer
first runs `WriteHeader(http.StatusOK)`; the chunk is forwarded to the
underlying writer (modelled as fully succeeding, `n = len b`), the size is
accumulated, then `log` runs. -/
def rlWrite (env : Env) (hdr : RespHeaders) (b : Nat) (s : RLState) :
    RLState × List Event :=
  let r1 := if s.committed then (s, []) else rlWriteHeader env hdr 200 s
  let s2 := { r1.1 with size := r1.1.size + b }
  let r3 := rlLog env hdr b s2
  (r3.1, r1.2 ++ Event.write b :: r3.2)

/-- One intercepted call on the observer: `setStatus` is `WriteHeader`,
`writeBody` is `Write` with the chunk's byte count. -/
inductive Op where
  | setStatus (code : Int)
  | writeBody (b : Nat)
  deriving Repr, DecidableEq

/-- Whether an `Op` is a body write. -/
def Op.isWriteOp : Op → Bool
  | .writeBody _ => true
  | .setStatus _ => false

/-- Dispatch one call. The headers `hdr` are the live underlying header map
at the moment of the call (the handler may mutate it between calls). -/
def applyOp (env : Env) (hdr : RespHeaders) : Op → RLState → RLState × List Event
  | .setStatus code, s => rlWriteHeader env hdr code s
  | .writeBody b, s => rlWrite env hdr b s

/-- Run a sequence of intercepted calls, each paired with the header map it
observes, collecting the full trace. -/
def runOps (env : Env) : List (RespHeaders × Op) → RLState → RLState × List Event
  | [], s => (s, [])
  | p :: rest, s =>
    let r1 := applyOp env p.1 p.2 s
    let r2 := runOps env rest r1.1
    (r2.1, r1.2 ++ r2.2)

/-- The `Fields` map built by `Logger.RequestHandler`'s returned closure. -/
def reqRecord (env : Env) : Fields :=
  addFields (fun fl => RequestField.computeValue fl env.now env.req)
    [] env.cfg.requestFields

/-- Embedding of `Logger.RequestHandler` (http.go): with no configured
request fields the returned handler is a no-op; otherwise it builds the
record, attaches it when non-empty, and always emits the request-received
message. -/
def requestHandler (env : Env) : List Event :=
  if env.cfg.requestFields.isEmpty then []
  else
    let f := reqRecord env
    (if f.isEmpty then [] else [Event.withFields f]) ++
      [Event.log "Received HTTP request"]

/-- Number of sink emission (`Log`) calls in a trace. -/
def countEmits (tr : List Event) : Nat :=
  tr.countP (fun e => match e with | .log _ => true | _ => false)

/-! ### Association-list (`Fields` map) lemmas -/

theorem mem_setField_self (l : Fields) (k v : String) : (k, v) ∈ setField l k v := by
  induction l with
  | nil => simp [setField]
  | cons p rest ih =>
    by_cases h : p.1 = k
    · simp [setField, h]
    · simp only [setField]
      rw [if_neg h]
      exact List.mem_cons_of_mem _ ih

theorem mem_setField_of_ne {l : Fields} {a b : String} (k v : String)
    (h : (a, b) ∈ l) (hne : a ≠ k) : (a, b) ∈ setField l k v := by
  induction l with
  | nil => simp at h
  | cons p rest ih =>
    obtain ⟨pk, pv⟩ := p
    by_cases hp : pk = k
    · simp only [setField]
      rw [if_pos hp]
      rcases List.mem_cons.mp h with h | h
      · exact absurd (hp ▸ congrArg Prod.fst h) hne
      · exact List.mem_cons_of_mem _ h
    · simp only [setField]
      rw [if_neg hp]
      rcases List.mem_cons.mp h with h | h
      · rw [h]
        exact List.mem_cons_self _ _
      · exact List.mem_cons_of_mem _ (ih h)

theorem eq_or_mem_of_mem_setField {l : Fields} {k v : String} {kv : String × String}
    (h : kv ∈ setField l k v) : kv = (k, v) ∨ kv ∈ l := by
  induction l with
  | nil => simpa [setField] using h
  | cons p rest ih =>
    by_cases hp : p.1 = k
    · simp only [setField] at h
      rw [if_pos hp] at h
      rcases List.mem_cons.mp h with h | h
      · exact Or.inl h
      · exact Or.inr (List.mem_cons_of_mem _ h)
    · simp only [setField] at h
      rw [if_neg hp] at h
      rcases List.mem_cons.mp h with h | h
      · exact Or.inr (h ▸ List.mem_cons_self _ _)
      · rcases ih h with h | h
        · exact Or.inl h
        · exact Or.inr (List.mem_cons_of_mem _ h)

theorem addFields_cons (g : String → String) (acc : Fields) (fl : String)
    (fls : List String) :
    addFields g acc (fl :: fls) =
      addFields g (if g fl = "" then acc else setField acc fl (g fl)) fls := rfl

theorem addFields_values {g : String → String} {acc : Fields}
    (hacc : ∀ kv ∈ acc, kv.2 ≠ "") :
    ∀ fls, ∀ kv ∈ addFields g acc fls, kv.2 ≠ "" := by
  intro fls
  induction fls generalizing acc with
  | nil => exact hacc
  | cons fl rest ih =>
    rw [addFields_cons]
    by_cases hv : g fl = ""
    · rw [if_pos hv]
      exact ih hacc
    · rw [if_neg hv]
      refine ih ?_
      intro kv hkv
      rcases eq_or_mem_of_mem_setField hkv with h | h
      · rw [h]
        exact hv
      · exact hacc kv h

theorem addFields_mem_of_mem {g : String → String} {k : String} {acc : Fields}
    (hacc : (k, g k) ∈ acc) (fls : List String) : (k, g k) ∈ addFields g acc fls := by
  induction fls generalizing acc with
  | nil => exact hacc
  | cons fl rest ih =>
    rw [addFields_cons]
    by_cases hv : g fl = ""
    · rw [if_pos hv]
      exact ih hacc
    · rw [if_neg hv]
      refine ih ?_
      by_cases hfk : fl = k
      · subst hfk
        exact mem_setField_self _ _ _
      · exact mem_setField_of_ne _ _ hacc (fun h => hfk h.symm)

theorem addFields_mem {g : String → String} {k : String} {fls : List String}
    (hk : k ∈ fls) (hv : g k ≠ "") (acc : Fields) : (k, g k) ∈ addFields g acc fls := by
  induction fls generalizing acc with
  | nil => simp at hk
  | cons fl rest ih =>
    rw [addFields_cons]
    rcases List.mem_cons.mp hk with h | h
    · subst h
      rw [if_neg hv]
      by_cases hrest : k ∈ rest
      · exact ih hrest _
      · exact addFields_mem_of_mem (mem_setField_self _ _ _) _
    · exact ih h _

/-! ### `toString` of a natural number is never the empty string -/

theorem toDigitsCore_length_le (b : Nat) :
    ∀ (fuel n : Nat) (ds : List Char), ds.length ≤ (Nat.toDigitsCore b fuel n ds).length := by
  intro fuel
  induction fuel with
  | zero => intro n ds; simp [Nat.toDigitsCore]
  | succ fuel ih =>
    intro n ds
    show ds.length ≤ (if n / b = 0 then Nat.digitChar (n % b) :: ds
        else Nat.toDigitsCore b fuel (n / b) (Nat.digitChar (n % b) :: ds)).length
    by_cases h : n / b = 0
    · simp [h]
    · rw [if_neg h]
      exact le_trans (by simp) (ih (n / b) _)

theorem toDigitsCore_succ_length (b fuel n : Nat) (ds : List Char) :
    1 ≤ (Nat.toDigitsCore b (fuel + 1) n ds).length := by
  show 1 ≤ (if n / b = 0 then Nat.digitChar (n % b) :: ds
            else Nat.toDigitsCore b fuel (n / b) (Nat.digitChar (n % b) :: ds)).length
  by_cases h : n / b = 0
  · simp [h]
  · rw [if_neg h]
    exact le_trans (by simp) (toDigitsCore_length_le b fuel (n / b) _)

theorem toDigits_ne_nil (b n : Nat) : Nat.toDigits b n ≠ [] := by
  intro h
  have hlen : 1 ≤ (Nat.toDigits b n).length := toDigitsCore_succ_length b n n []
  rw [h] at hlen
  simp at hlen

theorem toString_nat_ne_empty (n : Nat) : toString n ≠ "" := by
  intro h
  have hd : Nat.toDigits 10 n = [] := by
    have hcongr := congrArg String.data h
    simpa [toString, Nat.repr, List.asString] using hcongr
  exact toDigits_ne_nil 10 n hd

/-! ### Emission counting and the `logged` guard -/

theorem countEmits_append (a b : List Event) :
    countEmits (a ++ b) = countEmits a + countEmits b := by
  simp [countEmits, List.countP_append]

/-- The number of emissions an observer state still admits: one before the
`logged` flag is set, none after. -/
def emitBound (s : RLState) : Nat := if s.logged then 0 else 1

theorem rlLog_spent (env : Env) (hdr : RespHeaders) (b : Nat) (s : RLState) :
    countEmits (rlLog env hdr b s).2 + emitBound (rlLog env hdr b s).1 = emitBound s := by
  by_cases h : s.logged
  · simp [rlLog, h, emitBound, countEmits]
  · by_cases hf : (logRecord env hdr { s with logged := true }).isEmpty
    · simp [rlLog, h, hf, emitBound, countEmits]
    · simp [rlLog, h, hf, emitBound, countEmits]

theorem rlLog_logged (env : Env) (hdr : RespHeaders) (b : Nat) (s : RLState) :
    (rlLog env hdr b s).1.logged = true := by
  by_cases h : s.logged
  · simpa [rlLog, h] using h
  · simp [rlLog, h]

theorem rlLog_committed (env : Env) (hdr : RespHeaders) (b : Nat) (s : RLState) :
    (rlLog env hdr b s).1.committed = s.committed := by
  by_cases h : s.logged <;> simp [rlLog, h]

theorem rlWriteHeader_spent (env : Env) (hdr : RespHeaders) (code : Int) (s : RLState) :
    countEmits (rlWriteHeader env hdr code s).2 +
      emitBound (rlWriteHeader env hdr code s).1 = emitBound s := by
  by_cases hc : s.committed
  · simp [rlWriteHeader, hc, countEmits]
  · by_cases hl : hdr.location ≠ ""
    · have := rlLog_spent env hdr 0 { s with status := code, committed := true }
      simpa [rlWriteHeader, hc, hl, countEmits, emitBound, List.countP_cons] using this
    · simp [rlWriteHeader, hc, hl, countEmits, emitBound, List.countP_cons]

theorem rlWriteHeader_committed (env : Env) (hdr : RespHeaders) (code : Int) (s : RLState)
    (hc : s.committed = false) : (rlWriteHeader env hdr code s).1.committed = true := by
  rw [rlWriteHeader, if_neg (by simp [hc])]
  by_cases hl : hdr.location ≠ ""
  · simp only [if_pos hl]
    rw [rlLog_committed]
  · simp [hl]

theorem rlWriteHeader_logged_mono (env : Env) (hdr : RespHeaders) (code : Int) (s : RLState)
    (h : s.logged = true) : (rlWriteHeader env hdr code s).1.logged = true := by
  by_cases hc : s.committed
  · simpa [rlWriteHeader, hc] using h
  · by_cases hl : hdr.location ≠ ""
    · simp [rlWriteHeader, hc, hl, rlLog_logged]
    · simpa [rlWriteHeader, hc, hl] using h

theorem rlWrite_spent (env : Env) (hdr : RespHeaders) (b : Nat) (s : RLState) :
    countEmits (rlWrite env hdr b s).2 + emitBound (rlWrite env hdr b s).1 = emitBound s := by
  by_cases hc : s.committed
  · have := rlLog_spent env hdr b { s with size := s.size + b }
    simpa [rlWrite, hc, countEmits_append, countEmits, List.countP_cons, emitBound] using this
  · have h1 := rlWriteHeader_spent env hdr 200 s
    rcases hw : rlWriteHeader env hdr 200 s with ⟨w1, tr1⟩
    rw [hw] at h1
    have h2 := rlLog_spent env hdr b { w1 with size := w1.size + b }
    have h3 : emitBound { w1 with size := w1.size + b } = emitBound w1 := by
      simp [emitBound]
    rw [h3] at h2
    have h4 : countEmits
        (Event.write b :: (rlLog env hdr b { w1 with size := w1.size + b }).2) =
        countEmits (rlLog env hdr b { w1 with size := w1.size + b }).2 := by
      simp [countEmits, List.countP_cons]
    simp only [rlWrite, hw]
    rw [if_neg hc, countEmits_append]
    simp only at h1 h2 ⊢
    rw [h4]
    omega

theorem rlWrite_logged (env : Env) (hdr : RespHeaders) (b : Nat) (s : RLState) :
    (rlWrite env hdr b s).1.logged = true := by
  simp [rlWrite, rlLog_logged]

theorem applyOp_spent (env : Env) (hdr : RespHeaders) (op : Op) (s : RLState) :
    countEmits (applyOp env hdr op s).2 + emitBound (applyOp env hdr op s).1 = emitBound s := by
  cases op with
  | setStatus code => exact rlWriteHeader_spent env hdr code s
  | writeBody b => exact rlWrite_spent env hdr b s

theorem applyOp_logged_mono (env : Env) (hdr : RespHeaders) (op : Op) (s : RLState)
    (h : s.logged = true) : (applyOp env hdr op s).1.logged = true := by
  cases op with
  | setStatus code => exact rlWriteHeader_logged_mono env hdr code s h
  | writeBody b => exact rlWrite_logged env hdr b s

theorem runOps_spent (env : Env) (ops : List (RespHeaders × Op)) (s : RLState) :
    countEmits (runOps env ops s).2 + emitBound (runOps env ops s).1 = emitBound s := by
  induction ops generalizing s with
  | nil => simp [runOps, countEmits]
  | cons p rest ih =>
    have h1 := applyOp_spent env p.1 p.2 s
    have h2 := ih (applyOp env p.1 p.2 s).1
    simp only [runOps, countEmits_append]
    omega

theorem runOps_logged_of_write (env : Env) (ops : List (RespHeaders × Op)) (s : RLState)
    (hne : ops ≠ []) (hw : ∀ p ∈ ops, p.2.isWriteOp = true) :
    (runOps env ops s).1.logged = true := by
  induction ops generalizing s with
  | nil => exact absurd rfl hne
  | cons p rest ih =>
    rcases rest with _ | ⟨q, rest⟩
    · have hp := hw p (List.mem_cons_self _ _)
      cases hop : p.2 with
      | setStatus code => rw [hop] at hp; simp [Op.isWriteOp] at hp
      | writeBody b =>
        simp only [runOps]
        rw [hop]
        exact rlWrite_logged env p.1 b s
    · simp only [runOps]
      exact ih _ (by simp) (fun q hq => hw q (List.mem_cons_of_mem _ hq))

/-! ### No empty-valued field ever reaches the sink -/

/-- Every `Fields` map handed to the sink's `WithFields` inside a trace has
only non-empty values. -/
def recordsNonempty (tr : List Event) : Prop :=
  ∀ f, Event.withFields f ∈ tr → ∀ kv ∈ f, kv.2 ≠ ""

theorem recordsNonempty_nil : recordsNonempty [] := by
  intro f hf
  simp at hf

theorem recordsNonempty_append {a b : List Event}
    (ha : recordsNonempty a) (hb : recordsNonempty b) : recordsNonempty (a ++ b) := by
  intro f hf
  rcases List.mem_append.mp hf with h | h
  · exact ha f h
  · exact hb f h

theorem logRecord_values (env : Env) (hdr : RespHeaders) (s : RLState) :
    ∀ kv ∈ logRecord env hdr s, kv.2 ≠ "" := by
  unfold logRecord
  exact addFields_values (addFields_values (by simp) _) _

theorem reqRecord_values (env : Env) : ∀ kv ∈ reqRecord env, kv.2 ≠ "" := by
  unfold reqRecord
  exact addFields_values (by simp) _

theorem rlLog_records (env : Env) (hdr : RespHeaders) (b : Nat) (s : RLState) :
    recordsNonempty (rlLog env hdr b s).2 := by
  by_cases h : s.logged
  · simp only [rlLog, h, ite_true]
    exact recordsNonempty_nil
  · by_cases hf : (logRecord env hdr { s with logged := true }).isEmpty
    · intro f hmem
      simp [rlLog, h, hf] at hmem
    · intro f hmem
      simp [rlLog, h, hf] at hmem
      rw [hmem]
      exact logRecord_values env hdr _

theorem rlWriteHeader_records (env : Env) (hdr : RespHeaders) (code : Int) (s : RLState) :
    recordsNonempty (rlWriteHeader env hdr code s).2 := by
  by_cases hc : s.committed
  · simp only [rlWriteHeader, hc, ite_true]
    exact recordsNonempty_nil
  · by_cases hl : hdr.location ≠ ""
    · intro f hmem
      simp only [rlWriteHeader, hc, hl] at hmem
      rw [if_neg (by simp [hc])] at hmem
      rw [if_pos hl] at hmem
      rcases List.mem_cons.mp hmem with h | h
      · simp at h
      · exact rlLog_records env hdr 0 _ f h
    · intro f hmem
      simp only [rlWriteHeader] at hmem
      rw [if_neg (by simp [hc])] at hmem
      rw [if_neg hl] at hmem
      simp at hmem

theorem rlWrite_records (env : Env) (hdr : RespHeaders) (b : Nat) (s : RLState) :
    recordsNonempty (rlWrite env hdr b s).2 := by
  have hhead : recordsNonempty
      (if s.committed then ((s, []) : RLState × List Event) else rlWriteHeader env hdr 200 s).2 := by
    by_cases hc : s.committed
    · simp only [hc, ite_true]
      exact recordsNonempty_nil
    · simp only [hc, ite_false]
      rw [if_neg (by simp [hc])]
      exact rlWriteHeader_records env hdr 200 s
  intro f hmem
  simp only [rlWrite] at hmem
  rcases List.mem_append.mp hmem with h | h
  · exact hhead f h
  · rcases List.mem_cons.mp h with h | h
    · simp at h
    · exact rlLog_records env hdr b _ f h

theorem applyOp_records (env : Env) (hdr : RespHeaders) (op : Op) (s : RLState) :
    recordsNonempty (applyOp env hdr op s).2 := by
  cases op with
  | setStatus code => exact rlWriteHeader_records env hdr code s
  | writeBody b => exact rlWrite_records env hdr b s

theorem runOps_records (env : Env) (ops : List (RespHeaders × Op)) (s : RLState) :
    recordsNonempty (runOps env ops s).2 := by
  induction ops generalizing s with
  | nil => exact recordsNonempty_nil
  | cons p rest ih =>
    simp only [runOps]
    exact recordsNonempty_append (applyOp_records env p.1 p.2 s) (ih _)

theorem requestHandler_records (env : Env) : recordsNonempty (requestHandler env) := by
  by_cases h : env.cfg.requestFields.isEmpty
  · simp only [requestHandler, h, ite_true]
    exact recordsNonempty_nil
  · by_cases hf : (reqRecord env).isEmpty
    · intro f hmem
      simp [requestHandler, h, hf] at hmem
    · intro f hmem
      simp [requestHandler, h, hf] at hmem
      rw [hmem]
      exact reqRecord_values env

/-! ### Exact traces of committed/logged observers -/

/-- Byte count carried by an `Op` (`0` for a header write). -/
def Op.amt : Op → Nat
  | .setStatus _ => 0
  | .writeBody b => b

/-- Total byte count of the body writes in a call sequence. -/
def sumWrites (ops : List (RespHeaders × Op)) : Nat :=
  (ops.map (fun p => p.2.amt)).sum

theorem rlLog_of_logged (env : Env) (hdr : RespHeaders) (b : Nat) {s : RLState}
    (h : s.logged = true) : rlLog env hdr b s = (s, []) := by
  simp [rlLog, h]

theorem rlWrite_of_logged (env : Env) (hdr : RespHeaders) (b : Nat) {s : RLState}
    (hc : s.committed = true) (hl : s.logged = true) :
    rlWrite env hdr b s = ({ s with size := s.size + b }, [Event.write b]) := by
  simp only [rlWrite, hc, ite_true]
  rw [rlLog_of_logged env hdr b (by simpa using hl)]
  simp

theorem runOps_writes_of_logged (env : Env) (ops : List (RespHeaders × Op)) (s : RLState)
    (hc : s.committed = true) (hl : s.logged = true)
    (hw : ∀ p ∈ ops, p.2.isWriteOp = true) :
    runOps env ops s =
      ({ s with size := s.size + sumWrites ops },
       ops.map (fun p => Event.write p.2.amt)) := by
  induction ops generalizing s with
  | nil =>
    rcases s with ⟨st, sz, c, l⟩
    simp [runOps, sumWrites]
  | cons p rest ih =>
    have hp := hw p (List.mem_cons_self _ _)
    cases hop : p.2 with
    | setStatus code =>
      rw [hop] at hp
      simp [Op.isWriteOp] at hp
    | writeBody b =>
      simp only [runOps, applyOp, hop]
      rw [rlWrite_of_logged env p.1 b hc hl]
      dsimp only
      rw [ih { s with size := s.size + b } hc hl
        (fun q hq => hw q (List.mem_cons_of_mem _ hq))]
      simp [sumWrites, hop, Op.amt, Nat.add_assoc]

theorem rlWriteHeader_plain (env : Env) (hdr : RespHeaders) (code : Int) {s : RLState}
    (hloc : hdr.location = "") (hc : s.committed = false) :
    rlWriteHeader env hdr code s =
      ({ s with status := code, committed := true }, [Event.writeHeader code]) := by
  rw [rlWriteHeader, if_neg (by simp [hc])]
  simp [hloc]

/-! ### Claim theorems -/

/-- C10: once a `responseLogger` is committed, a `WriteHeader(code)` call is
a complete no-op for any status code: the state (status, size, committed,
logged) is unchanged and no call is forwarded to the underlying writer or
the sink. -/
theorem claim10_committed_writeHeader_noop (env : Env) (hdr : RespHeaders) (code : Int)
    (s : RLState) (hc : s.committed = true) :
    rlWriteHeader env hdr code s = (s, []) := by
  simp [rlWriteHeader, hc]

theorem claim10_witness :
    rlWriteHeader {} {} 500 { status := 200, committed := true } =
      ({ status := 200, committed := true }, []) :=
  claim10_committed_writeHeader_noop {} {} 500 { status := 200, committed := true } rfl

/-- C2: `Write(b)` on an uncommitted observer is identical to
`WriteHeader(200)` followed by `Write(b)`: the same final state and the very
same ordered calls on the underlying writer and the sink; the final state is
committed and logged with status 200 and the byte count grown by `b`. -/
theorem claim2_default_status (env : Env) (hdr : RespHeaders) (b : Nat) (s : RLState)
    (hc : s.committed = false) :
    rlWrite env hdr b s =
      runOps env [(hdr, Op.setStatus 200), (hdr, Op.writeBody b)] s ∧
    (rlWrite env hdr b s).1 =
      { s with status := 200, size := s.size + b, committed := true, logged := true } := by
  have hcom : (rlWriteHeader env hdr 200 s).1.committed = true :=
    rlWriteHeader_committed env hdr 200 s hc
  constructor
  · simp only [runOps, applyOp, rlWrite, hc, ite_false, hcom, ite_true]
    simp [hcom]
  · rcases s with ⟨st, sz, c, l⟩
    simp only at hc
    subst hc
    by_cases hloc : hdr.location ≠ ""
    · by_cases hl : l
      · subst hl
        simp [rlWrite, rlWriteHeader, rlLog, hloc]
      · simp only [Bool.not_eq_true] at hl
        subst hl
        simp [rlWrite, rlWriteHeader, rlLog, hloc]
    · simp only [ne_eq, not_not] at hloc
      by_cases hl : l
      · subst hl
        simp [rlWrite, rlWriteHeader, rlLog, hloc]
      · simp only [Bool.not_eq_true] at hl
        subst hl
        simp [rlWrite, rlWriteHeader, rlLog, hloc]

theorem claim2_witness :
    rlWrite {} {} 7 rlInit =
      runOps {} [({}, Op.setStatus 200), ({}, Op.writeBody 7)] rlInit ∧
    (rlWrite {} {} 7 rlInit).1 =
      { status := 200, size := 7, committed := true, logged := true } :=
  claim2_default_status {} {} 7 rlInit rfl

/-- C1: over any call sequence on one fresh observer the completion log
fires at most once — whatever the headers at each call — and a sequence of
one `WriteHeader` followed by one or more `Write`s yields exactly one
emission. -/
theorem claim1_at_most_once (env : Env) (ops : List (RespHeaders × Op)) :
    countEmits (runOps env ops rlInit).2 ≤ 1 ∧
    (∀ (h0 : RespHeaders) (code : Int) (rest : List (RespHeaders × Op)),
      rest ≠ [] → (∀ p ∈ rest, p.2.isWriteOp = true) →
      countEmits (runOps env ((h0, Op.setStatus code) :: rest) rlInit).2 = 1) := by
  constructor
  · have h := runOps_spent env ops rlInit
    have h1 : emitBound rlInit = 1 := rfl
    omega
  · intro h0 code rest hne hw
    have h := runOps_spent env ((h0, Op.setStatus code) :: rest) rlInit
    have hfin : (runOps env ((h0, Op.setStatus code) :: rest) rlInit).1.logged = true := by
      simp only [runOps]
      exact runOps_logged_of_write env rest _ hne hw
    have hb : emitBound (runOps env ((h0, Op.setStatus code) :: rest) rlInit).1 = 0 := by
      simp [emitBound, hfin]
    have h1 : emitBound rlInit = 1 := rfl
    omega

/-- C3: with a non-empty `Location` header, `WriteHeader(302)` on an
uncommitted, unlogged observer emits right inside that call with the
redirect message — exactly one emission and no body write among its
effects — and a subsequent `Write` only forwards the bytes, emitting
nothing further. -/
theorem claim3_redirect_short_circuit (env : Env) (hdr hdr2 : RespHeaders) (b : Nat)
    (s : RLState) (hloc : hdr.location ≠ "") (hc : s.committed = false)
    (hl : s.logged = false) :
    Event.log "Redirecting HTTP request" ∈ (rlWriteHeader env hdr 302 s).2 ∧
    countEmits (rlWriteHeader env hdr 302 s).2 = 1 ∧
    (∀ n, Event.write n ∉ (rlWriteHeader env hdr 302 s).2) ∧
    rlWrite env hdr2 b (rlWriteHeader env hdr 302 s).1 =
      ({ (rlWriteHeader env hdr 302 s).1 with
          size := (rlWriteHeader env hdr 302 s).1.size + b }, [Event.write b]) := by
  have hform : rlWriteHeader env hdr 302 s =
      ({ s with status := 302, committed := true, logged := true },
       Event.writeHeader 302 ::
         ((if (logRecord env hdr
              { s with status := 302, committed := true, logged := true }).isEmpty
           then []
           else [Event.withFields (logRecord env hdr
              { s with status := 302, committed := true, logged := true })]) ++
          [Event.log "Redirecting HTTP request"])) := by
    rw [rlWriteHeader, if_neg (by simp [hc])]
    dsimp only
    rw [if_pos hloc]
    rw [rlLog, if_neg (by simp [hl])]
    dsimp only
    simp [hloc]
  refine ⟨?_, ?_, ?_, ?_⟩
  · rw [hform]
    simp
  · rw [hform]
    by_cases hfe : (logRecord env hdr
        { s with status := 302, committed := true, logged := true }).isEmpty
    · simp [hfe, countEmits, List.countP_cons, List.countP_append]
    · simp [hfe, countEmits, List.countP_cons, List.countP_append]
  · intro n
    rw [hform]
    by_cases hfe : (logRecord env hdr
        { s with status := 302, committed := true, logged := true }).isEmpty
    · simp [hfe]
    · simp [hfe]
  · rw [hform]
    exact rlWrite_of_logged env hdr2 b rfl rfl

/-- C4: no `Fields` map the engine hands to the sink — in the request-phase
record or in the completion record, for any configuration, request, headers
and call sequence — contains a key whose computed value is the empty
string. -/
theorem claim4_no_empty_values (env : Env) (ops : List (RespHeaders × Op)) :
    recordsNonempty (requestHandler env) ∧
    recordsNonempty (runOps env ops rlInit).2 :=
  ⟨requestHandler_records env, runOps_records env ops rlInit⟩

theorem rlWrite_first (env : Env) (hdr : RespHeaders) (b1 : Nat) (hloc : hdr.location = "")
    (hF : (logRecord env hdr
        { status := 200, size := b1, committed := true, logged := true }).isEmpty = false) :
    rlWrite env hdr b1 rlInit =
      ({ status := 200, size := b1, committed := true, logged := true },
       [Event.writeHeader 200, Event.write b1,
        Event.withFields (logRecord env hdr
          { status := 200, size := b1, committed := true, logged := true }),
        Event.log "Responding to HTTP request"]) := by
  simp [rlWrite, rlWriteHeader, rlLog, rlInit, hloc, hF]

/-- C9: the completion emission happens inside the first `Write` call, after
that write's byte count was added: with no redirect header and
`res_bytes_out` configured, a first write of `b1` bytes followed by more
writes produces one record whose `res_bytes_out` is `toString b1`, while the
observer's cumulative size ends at `b1` plus the later writes' bytes. -/
theorem claim9_bytes_out_first_write (env : Env) (hdr : RespHeaders) (b1 : Nat)
    (rest : List (RespHeaders × Op)) (hloc : hdr.location = "")
    (hmem : BytesOutField ∈ env.cfg.responseFields)
    (hne : rest ≠ []) (hw : ∀ p ∈ rest, p.2.isWriteOp = true) :
    runOps env ((hdr, Op.writeBody b1) :: rest) rlInit =
      ({ status := 200, size := b1 + sumWrites rest, committed := true, logged := true },
       [Event.writeHeader 200, Event.write b1,
        Event.withFields (logRecord env hdr
          { status := 200, size := b1, committed := true, logged := true }),
        Event.log "Responding to HTTP request"] ++
       rest.map (fun p => Event.write p.2.amt)) ∧
    (BytesOutField, toString b1) ∈ logRecord env hdr
      { status := 200, size := b1, committed := true, logged := true } := by
  have hv : ResponseField.computeValue BytesOutField env.now hdr
      { status := 200, size := b1, committed := true, logged := true } ≠ "" :=
    toString_nat_ne_empty b1
  have hpair : (BytesOutField, toString b1) ∈ logRecord env hdr
      { status := 200, size := b1, committed := true, logged := true } :=
    addFields_mem hmem hv _
  have hF : (logRecord env hdr
      { status := 200, size := b1, committed := true, logged := true }).isEmpty = false := by
    have hFne := List.ne_nil_of_mem hpair
    simpa [List.isEmpty_iff] using hFne
  refine ⟨?_, hpair⟩
  simp only [runOps, applyOp]
  rw [rlWrite_first env hdr b1 hloc hF]
  dsimp only
  rw [runOps_writes_of_logged env rest
    { status := 200, size := b1, committed := true, logged := true } rfl rfl hw]

/-! ### Splitting lemmas and the field-level claims -/

theorem splitCh_not_mem {c : Char} : ∀ {l : List Char}, c ∉ l → splitCh c l = [l] := by
  intro l
  induction l with
  | nil => intro _; rfl
  | cons x xs ih =>
    intro h
    have hx : ¬x = c := fun hxc => h (hxc ▸ List.mem_cons_self _ _)
    have hxs : c ∉ xs := fun hc => h (List.mem_cons_of_mem _ hc)
    simp only [splitCh]
    rw [if_neg hx, ih hxs]

theorem strSplit_not_contains {c : Char} {e : String} (h : c ∉ e.data) :
    strSplit c e = [e] := by
  unfold strSplit
  rw [splitCh_not_mem h]
  rfl

/-- C5 (amended): a `&`-element with no `=` and a non-empty key is kept —
its text becomes a key of the output — but, like every kept key, it is
emitted with the `=...` marker appended rather than appearing unchanged;
elements with an empty key are dropped, so no empty key is ever kept. -/
theorem claim5_bare_key (q e : String) (he : e ∈ strSplit '&' q) :
    ('=' ∉ e.data → e ≠ "" →
      e ∈ compactKeys q ∧
      (e ++ "=...") ∈ (compactKeys q).map (fun a => a ++ "=...") ∧
      formatCompactArgs q =
        String.intercalate "&" ((compactKeys q).map (fun a => a ++ "=..."))) ∧
    (∀ k ∈ compactKeys q, k ≠ "") := by
  constructor
  · intro hnoeq hne
    have hk : e ∈ compactKeys q := by
      unfold compactKeys
      refine List.mem_filterMap.mpr ⟨e, he, ?_⟩
      rw [strSplit_not_contains hnoeq]
      simp [hne]
    refine ⟨hk, List.mem_map_of_mem _ hk, ?_⟩
    have hemp : (compactKeys q).isEmpty = false := by
      simpa [List.isEmpty_iff] using List.ne_nil_of_mem hk
    unfold formatCompactArgs
    simp [hemp]
  · intro k hk
    unfold compactKeys at hk
    rcases List.mem_filterMap.mp hk with ⟨a, _, hfa⟩
    rcases hsp : strSplit '=' a with _ | ⟨a0, t⟩
    · rw [hsp] at hfa
      simp at hfa
    · rw [hsp] at hfa
      by_cases h0 : a0 = ""
      · simp [h0] at hfa
      · simp [h0] at hfa
        exact hfa ▸ h0

theorem claim5_counterexample :
    formatCompactArgs "foo" = "foo=..." ∧ formatCompactArgs "foo" ≠ "foo" := by
  decide

theorem claim5_witness :
    "foo" ∈ compactKeys "foo&=v" ∧
    ("foo" ++ "=...") ∈ (compactKeys "foo&=v").map (fun a => a ++ "=...") ∧
    formatCompactArgs "foo&=v" =
      String.intercalate "&" ((compactKeys "foo&=v").map (fun a => a ++ "=...")) ∧
    (∀ k ∈ compactKeys "foo&=v", k ≠ "") := by
  have h := claim5_bare_key "foo&=v" "foo" (by decide)
  have h2 := h.1 (by decide) (by decide)
  exact ⟨h2.1, h2.2.1, h2.2.2, h.2⟩

/-- C6 (amended): `req_bytes_in` is `"0"` exactly when the `Content-Length`
header is absent (empty); a non-empty header value — parseable or not — is
returned verbatim. The computation is total. -/
theorem claim6_default_byte_count (now : String) (req : Request) :
    (req.contentLength = "" →
      RequestField.computeValue BytesInField now req = "0") ∧
    (req.contentLength ≠ "" →
      RequestField.computeValue BytesInField now req = req.contentLength) := by
  have hbase : RequestField.computeValue BytesInField now req =
      (if req.contentLength = "" then "0" else req.contentLength) := rfl
  constructor
  · intro h
    simp [hbase, h]
  · intro h
    simp [hbase, h]

theorem claim6_counterexample :
    RequestField.computeValue BytesInField "" { contentLength := "unknown" } = "unknown" ∧
    ("unknown" : String) ≠ "0" := by
  decide

theorem claim6_witness :
    RequestField.computeValue BytesInField "" {} = "0" ∧
    RequestField.computeValue BytesInField "" { contentLength := "12" } = "12" :=
  ⟨(claim6_default_byte_count "" {}).1 rfl,
   (claim6_default_byte_count "" { contentLength := "12" }).2 (by decide)⟩

/-- C7: `req_remote_ip` resolves in order — a non-empty `X-Forwarded-For`
wins, else a non-empty `X-Real-IP`, else the connection's remote address
with its port stripped (`net.SplitHostPort` host component). -/
theorem claim7_remote_ip_order (now : String) (req : Request) :
    (req.xForwardedFor ≠ "" →
      RequestField.computeValue RemoteIPField now req = req.xForwardedFor) ∧
    (req.xForwardedFor = "" → req.xRealIP ≠ "" →
      RequestField.computeValue RemoteIPField now req = req.xRealIP) ∧
    (req.xForwardedFor = "" → req.xRealIP = "" →
      RequestField.computeValue RemoteIPField now req = req.remoteAddrHost) := by
  have hbase : RequestField.computeValue RemoteIPField now req =
      (if req.xForwardedFor ≠ "" then req.xForwardedFor
       else if req.xRealIP ≠ "" then req.xRealIP
       else req.remoteAddrHost) := rfl
  refine ⟨fun h1 => ?_, fun h1 h2 => ?_, fun h1 h2 => ?_⟩
  · simp [hbase, h1]
  · simp [hbase, h1, h2]
  · simp [hbase, h1, h2]

theorem claim7_witness :
    RequestField.computeValue RemoteIPField ""
      { xForwardedFor := "10.0.0.1", xRealIP := "10.0.0.2",
        remoteAddrHost := "127.0.0.1" } = "10.0.0.1" ∧
    RequestField.computeValue RemoteIPField ""
      { xRealIP := "10.0.0.2", remoteAddrHost := "127.0.0.1" } = "10.0.0.2" ∧
    RequestField.computeValue RemoteIPField ""
      { remoteAddr := "127.0.0.1:51332", remoteAddrHost := "127.0.0.1" } = "127.0.0.1" :=
  ⟨(claim7_remote_ip_order "" _).1 (by decide),
   (claim7_remote_ip_order "" _).2.1 rfl (by decide),
   (claim7_remote_ip_order "" _).2.2 rfl rfl⟩

/-- The request-field tags with a matching `switch` case in
`RequestField.computeValue`. -/
def requestFieldNames : List String :=
  [ReqTimeField, IDField, RemoteIPField, HostField, URIField, ReqArgsField,
   MethodField, PathField, BytesInField, AuthField]

/-- The response-field tags with a matching `switch` case in
`ResponseField.computeValue`. -/
def responseFieldNames : List String :=
  [StatusField, BytesOutField, ResTimeField, ContentTypeField, LocationField,
   LocationArgsField, LocationHostField]

/-- C8: any selector outside both enumerated sets computes to the fixed
non-empty marker `"not supported"` — never a failure — and, being
non-empty, it lands in the built record under that marker whenever the
selector is configured, instead of being dropped. -/
theorem claim8_unknown_selector (f : String) (now : String) (req : Request)
    (hdr : RespHeaders) (s : RLState)
    (h1 : f ∉ requestFieldNames) (h2 : f ∉ responseFieldNames) :
    RequestField.computeValue f now req = "not supported" ∧
    ResponseField.computeValue f now hdr s = "not supported" ∧
    (∀ (acc : Fields) (fls : List String), f ∈ fls →
      (f, "not supported") ∈
        addFields (fun fl => RequestField.computeValue fl now req) acc fls) ∧
    (∀ (acc : Fields) (fls : List String), f ∈ fls →
      (f, "not supported") ∈
        addFields (fun fl => ResponseField.computeValue fl now hdr s) acc fls) := by
  simp only [requestFieldNames, ReqTimeField, IDField, RemoteIPField, HostField,
    URIField, ReqArgsField, MethodField, PathField, BytesInField, AuthField,
    List.mem_cons, List.not_mem_nil, or_false, not_or] at h1
  simp only [responseFieldNames, StatusField, BytesOutField, ResTimeField,
    ContentTypeField, LocationField, LocationArgsField, LocationHostField,
    List.mem_cons, List.not_mem_nil, or_false, not_or] at h2
  obtain ⟨n1, n2, n3, n4, n5, n6, n7, n8, n9, n10⟩ := h1
  obtain ⟨m1, m2, m3, m4, m5, m6, m7⟩ := h2
  have hreq : RequestField.computeValue f now req = "not supported" := by
    simp [RequestField.computeValue, ReqTimeField, IDField, RemoteIPField,
      HostField, URIField, ReqArgsField, MethodField, PathField, BytesInField,
      AuthField, n1, n2, n3, n4, n5, n6, n7, n8, n9, n10]
  have hres : ResponseField.computeValue f now hdr s = "not supported" := by
    simp [ResponseField.computeValue, StatusField, BytesOutField, ResTimeField,
      ContentTypeField, LocationField, LocationArgsField, LocationHostField,
      m1, m2, m3, m4, m5, m6, m7]
  refine ⟨hreq, hres, ?_, ?_⟩
  · intro acc fls hf
    have hv : RequestField.computeValue f now req ≠ "" := by
      rw [hreq]
      decide
    have hm := addFields_mem
      (g := fun fl => RequestField.computeValue fl now req) (k := f) hf hv acc
    rw [hreq] at hm
    exact hm
  · intro acc fls hf
    have hv : ResponseField.computeValue f now hdr s ≠ "" := by
      rw [hres]
      decide
    have hm := addFields_mem
      (g := fun fl => ResponseField.computeValue fl now hdr s) (k := f) hf hv acc
    rw [hres] at hm
    exact hm

theorem claim8_witness :
    RequestField.computeValue "res_fancy" "" {} = "not supported" ∧
    ResponseField.computeValue "res_fancy" "" {} {} = "not supported" ∧
    ("res_fancy", "not supported") ∈
      addFields (fun fl => RequestField.computeValue fl "" {}) [] ["res_fancy"] ∧
    ("res_fancy", "not supported") ∈
      addFields (fun fl => ResponseField.computeValue fl "" {} {}) [] ["res_fancy"] := by
  have h := claim8_unknown_selector "res_fancy" "" {} {} {} (by decide) (by decide)
  exact ⟨h.1, h.2.1, h.2.2.1 [] ["res_fancy"] (by decide),
    h.2.2.2 [] ["res_fancy"] (by decide)⟩

/-! ### Concrete witness inputs -/

/-- A concrete request, matching the repository's test request. -/
def reqW : Request :=
  { method := "GET", host := "localhost:1234",
    requestURI := "/some_endpoint?arg1=v1&arg2=v2",
    urlPath := "/some_endpoint", remoteAddr := "127.0.0.1:51332",
    remoteAddrHost := "127.0.0.1", formEncoded := "arg1=v1&arg2=v2" }

/-- A concrete environment with the default two-line configuration. -/
def envW : Env :=
  { req := reqW, cfg := DefaultReqResConfig, now := "2017-04-14T17:20:07+01:00" }

/-- Concrete headers carrying a redirect `Location`. -/
def hdW : RespHeaders :=
  { location := "http://localhost/wrong_endpoint?arg1=v1&arg2=v2" }

theorem claim1_witness :
    countEmits (runOps envW [(hdW, Op.setStatus 302), ({}, Op.writeBody 5)] rlInit).2 ≤ 1 ∧
    countEmits (runOps envW ((hdW, Op.setStatus 302) :: [({}, Op.writeBody 5)]) rlInit).2 = 1 :=
  ⟨(claim1_at_most_once envW [(hdW, Op.setStatus 302), ({}, Op.writeBody 5)]).1,
   (claim1_at_most_once envW []).2 hdW 302 [({}, Op.writeBody 5)] (by decide) (by decide)⟩

theorem claim3_witness :
    Event.log "Redirecting HTTP request" ∈ (rlWriteHeader envW hdW 302 rlInit).2 ∧
    countEmits (rlWriteHeader envW hdW 302 rlInit).2 = 1 ∧
    (∀ n, Event.write n ∉ (rlWriteHeader envW hdW 302 rlInit).2) ∧
    rlWrite envW {} 9 (rlWriteHeader envW hdW 302 rlInit).1 =
      ({ (rlWriteHeader envW hdW 302 rlInit).1 with
          size := (rlWriteHeader envW hdW 302 rlInit).1.size + 9 }, [Event.write 9]) :=
  claim3_redirect_short_circuit envW hdW {} 9 rlInit (by decide) rfl rfl

theorem claim4_witness : (("req_method", "GET") : String × String).2 ≠ "" :=
  (claim4_no_empty_values envW []).1 (reqRecord envW) (by decide)
    ("req_method", "GET") (by decide)

theorem claim9_witness :
    runOps envW (({}, Op.writeBody 5) :: [({}, Op.writeBody 3)]) rlInit =
      ({ status := 200, size := 5 + sumWrites [({}, Op.writeBody 3)],
         committed := true, logged := true },
       [Event.writeHeader 200, Event.write 5,
        Event.withFields (logRecord envW {}
          { status := 200, size := 5, committed := true, logged := true }),
        Event.log "Responding to HTTP request"] ++
       [(({} : RespHeaders), Op.writeBody 3)].map (fun p => Event.write p.2.amt)) ∧
    (BytesOutField, toString 5) ∈ logRecord envW {}
      { status := 200, size := 5, committed := true, logged := true } :=
  claim9_bytes_out_first_write envW {} 5 [({}, Op.writeBody 3)] rfl (by decide)
    (by decide) (by decide)

end Httplog
